import Mathlib

/-!
Verification of the Trolley-List generator (`trolley.py`).

The script reads an Excel table into a pandas DataFrame, validates required
columns, derives a `TROLLEY_ID` column from rack fragments (with fallbacks),
sorts, groups, and renders one PDF page per group.  We embed the table
manipulation shallowly: a cell value is a `Value` (integer, integral float,
string, or NaN), a row is an association list from column names to values,
and a DataFrame is a column list plus a row list.
-/

namespace Trolley

/-- A spreadsheet cell value as pandas sees it: an int, a float with integral
value (the shape Excel numeric cells take; `floatV n` prints as `n.0`),
a string, or a missing value (NaN). -/
inductive Value where
  | intV : Int → Value
  | floatV : Int → Value
  | strV : String → Value
  | naV : Value
deriving DecidableEq, Repr

/-- Python `str()` / pandas `astype(str)` on a cell value.  A float with
integral value `n` prints as `"n.0"`; NaN prints as `"nan"`. -/
def pyStr : Value → String
  | Value.intV n => toString n
  | Value.floatV n => toString n ++ ".0"
  | Value.strV s => s
  | Value.naV => "nan"

/-- A DataFrame row: association list from column name to cell value. -/
abbrev Row := List (String × Value)

/-- Reading a cell of a column that exists in the schema; a row with no
entry for the column holds NaN there. -/
def Row.getV (r : Row) (c : String) : Value := (r.lookup c).getD Value.naV

/-- Assigning one cell of a row (used by whole-column assignment). -/
def Row.set (r : Row) (c : String) (v : Value) : Row :=
  (c, v) :: r.filter (fun p => decide (p.1 ≠ c))

/-- A DataFrame: schema (column names) plus rows. -/
structure DF where
  cols : List String
  rows : List Row
deriving DecidableEq, Repr

/-- Column assignment `df[c] = f(row)` applied row-wise; adds `c` to the
schema when new, as pandas does. -/
def DF.setCol (df : DF) (c : String) (f : Row → Value) : DF :=
  { cols := if c ∈ df.cols then df.cols else df.cols ++ [c],
    rows := df.rows.map (fun r => r.set c (f r)) }

/-- The `except KeyError` fallback of the TROLLEY_ID construction
(`trolley.py` lines 252-257): copy the `Trolley No` column when present,
otherwise assign the literal `"Unknown"` to every row. -/
def fallbackTrolley (df : DF) : DF :=
  if "Trolley No" ∈ df.cols then
    df.setCol "TROLLEY_ID" (fun r => r.getV "Trolley No")
  else
    df.setCol "TROLLEY_ID" (fun _ => Value.strV "Unknown")

/-- `df['RACK'] = df['RACK'].astype(str)` (line 248). -/
def rackStep (df : DF) : DF :=
  df.setCol "RACK" (fun r => Value.strV (pyStr (r.getV "RACK")))

/-- `df['R1'] = df['RACK NO (1st digit)'].astype(str)` (line 249). -/
def r1Step (df : DF) : DF :=
  df.setCol "R1" (fun r => Value.strV (pyStr (r.getV "RACK NO (1st digit)")))

/-- `df['R2'] = df['RACK NO (2nd digit)'].astype(str)` (line 250). -/
def r2Step (df : DF) : DF :=
  df.setCol "R2" (fun r => Value.strV (pyStr (r.getV "RACK NO (2nd digit)")))

/-- `df['TROLLEY_ID'] = df['RACK'] + "-" + df['R1'] + df['R2']` (line 251);
at this point the three operand columns hold strings, and `+` on string
columns concatenates element-wise. -/
def trolleyStep (df : DF) : DF :=
  df.setCol "TROLLEY_ID" (fun r =>
    Value.strV (pyStr (r.getV "RACK") ++ "-" ++ pyStr (r.getV "R1") ++ pyStr (r.getV "R2")))

/-- The TROLLEY_ID derivation (`trolley.py` lines 246-257).  The `try` block
runs its four column assignments in order; a missing column raises
`KeyError` at the corresponding read, keeping the effects of the earlier
statements, and transfers control to the `except KeyError` fallback. -/
def deriveTrolleyId (df : DF) : DF :=
  if "RACK" ∈ df.cols then
    if "RACK NO (1st digit)" ∈ (rackStep df).cols then
      if "RACK NO (2nd digit)" ∈ (r1Step (rackStep df)).cols then
        trolleyStep (r2Step (r1Step (rackStep df)))
      else fallbackTrolley (r1Step (rackStep df))
    else fallbackTrolley (rackStep df)
  else fallbackTrolley df

/-- Required columns (`trolley.py` line 237). -/
def required_cols : List String :=
  ["STATION NO", "BUS MODEL", "PARTNO", "PART DESCRIPTION", "Qty / Veh", "LOCATION"]

/-- `missing = [c for c in required_cols if c not in df.columns]` (line 238). -/
def missingOf (df : DF) : List String :=
  required_cols.filter (fun c => decide (¬ c ∈ df.cols))

/-- Step 3 of preprocessing (lines 261-263): default the STATION NAME column
to the empty string when absent. -/
def ensureStationName (df : DF) : DF :=
  if "STATION NAME" ∈ df.cols then df
  else df.setCol "STATION NAME" (fun _ => Value.strV "")

/-- `df.fillna("")` (line 266): every NaN cell becomes the empty string. -/
def DF.fillna (df : DF) : DF :=
  { cols := df.cols,
    rows := df.rows.map (fun r =>
      r.map (fun p => (p.1, if p.2 = Value.naV then Value.strV "" else p.2))) }

/-- Preprocessing pipeline applied after the schema check, in source order:
TROLLEY_ID derivation, STATION NAME default, fillna. -/
def processTable (df : DF) : DF := DF.fillna (ensureStationName (deriveTrolleyId df))

/-! ## Sorting and grouping (`trolley.py` lines 268-279) -/

/-- Lexicographic comparison of character lists by code point. -/
def chListLE : List Char → List Char → Bool
  | [], _ => true
  | _ :: _, [] => false
  | a :: as, b :: bs =>
    if a.toNat < b.toNat then true
    else if b.toNat < a.toNat then false
    else chListLE as bs

/-- Lexicographic string comparison by code point (Python's string order). -/
def strLE (a b : String) : Bool := chListLE a.data b.data

/-- Comparison on cell values: same-kind values compare by their payload,
different kinds by an arbitrary fixed tag order.  Only used as the key
order of the modelled sort. -/
def valLE (a b : Value) : Bool :=
  match a, b with
  | Value.intV m, Value.intV n => decide (m ≤ n)
  | Value.floatV m, Value.floatV n => decide (m ≤ n)
  | Value.strV s, Value.strV t => strLE s t
  | Value.naV, Value.naV => true
  | Value.intV _, _ => true
  | _, Value.intV _ => false
  | Value.floatV _, _ => true
  | _, Value.floatV _ => false
  | Value.strV _, _ => true
  | _, Value.strV _ => false

/-- Lexicographic comparison of two-component sort keys. -/
def pairLE (a b : Value × Value) : Bool :=
  if a.1 = b.1 then valLE a.2 b.2 else valLE a.1 b.1

/-- The sort key used by `df.sort_values(by=['STATION NO', 'TROLLEY_ID'])`
(line 273): only these two columns. -/
def sortKey (r : Row) : Value × Value := (r.getV "STATION NO", r.getV "TROLLEY_ID")

/-- Ordered insertion into an already sorted list (stable). -/
def insertSorted (le : Row → Row → Bool) (x : Row) : List Row → List Row
  | [] => [x]
  | y :: ys => if le x y then x :: y :: ys else y :: insertSorted le x ys

/-- Stable insertion sort; models the row sort of `df.sort_values`. -/
def insertionSort (le : Row → Row → Bool) : List Row → List Row
  | [] => []
  | x :: xs => insertSorted le x (insertionSort le xs)

/-- `df.sort_values(by=['STATION NO', 'TROLLEY_ID'])`, modelled as a stable
sort on the two-column key. -/
def sortRows (rows : List Row) : List Row :=
  insertionSort (fun a b => pairLE (sortKey a) (sortKey b)) rows

/-- The grouping key tuple, in the column order of
`df.groupby(['STATION NO', 'TROLLEY_ID', 'STATION NAME', 'BUS MODEL'])`
(line 275). -/
abbrev GKey := Value × Value × Value × Value

/-- Key of one row under the source's groupby column list. -/
def fullKey (r : Row) : GKey :=
  (r.getV "STATION NO", r.getV "TROLLEY_ID", r.getV "STATION NAME", r.getV "BUS MODEL")

/-- Rows of the table after preprocessing and sorting, the state on which
`groupby` runs. -/
def sortedRows (df : DF) : List Row := sortRows (processTable df).rows

/-- The distinct group keys, in order of first appearance in the sorted table. -/
def groupKeys (df : DF) : List GKey := ((sortedRows df).map fullKey).dedup

/-- The rows of one group: the sorted table's rows carrying that key, in
table order (pandas `groupby` preserves encounter order within a group). -/
def groupOf (df : DF) (k : GKey) : List Row :=
  (sortedRows df).filter (fun r => decide (fullKey r = k))

/-- The `grouped` dict of line 271-279: each key with its rows. -/
def groupedPairs (df : DF) : List (GKey × List Row) :=
  (groupKeys df).map (fun k => (k, groupOf df k))

/-- Outcome of a generation request: schema rejection with the missing
column names (line 241), or the grouped table ready for rendering. -/
inductive GenResult where
  | schemaError (missing : List String)
  | ok (groups : List (GKey × List Row))
deriving DecidableEq, Repr

/-- The validation-and-preprocessing path of the app (lines 237-279):
reject when any required column is missing, else group. -/
def generate (df : DF) : GenResult :=
  if missingOf df = [] then GenResult.ok (groupedPairs df) else GenResult.schemaError (missingOf df)

/-- The top-level invocation gate (line 227): the body runs only when both
the Excel file and the top-right logo file have been uploaded. -/
def runApp (uploadedFile : Option DF) (topLogoFile : Option Unit) : Option GenResult :=
  match uploadedFile, topLogoFile with
  | some df, some _ => some (generate df)
  | _, _ => none

/-! ## Page composition (`TrolleyPDF.create_pdf` and `header_footer`) -/

/-- The page context set from a group key in `create_pdf` (lines 141-144):
`group_key[0]` is the station number, `[1]` the trolley number, `[2]` the
station name, `[3]` the model. -/
structure PageCtx where
  station_no : Value
  trolley_no : Value
  station_name : Value
  model : Value
deriving DecidableEq, Repr

/-- Positional decomposition of the group key (lines 141-144). -/
def pageCtxOfKey (k : GKey) : PageCtx :=
  { station_no := k.1, trolley_no := k.2.1, station_name := k.2.2.1, model := k.2.2.2 }

/-- `str(row.get(c, ''))`: the cell as text, empty when the row has no
entry for the column. -/
def cellStr (r : Row) (c : String) : String :=
  match r.lookup c with
  | some v => pyStr v
  | none => ""

/-- One data row of the parts table (lines 157-165): serial number then the
six attribute cells, every one through plain `str`. -/
def renderRow (i : Nat) (r : Row) : List String :=
  [toString i, cellStr r "PARTNO", cellStr r "PART DESCRIPTION", cellStr r "Qty / Veh",
   cellStr r "Max Size", cellStr r "Qty /Trolley", cellStr r "LOCATION"]

/-- The row loop of `create_pdf` (lines 155-166): `row_idx` starts at `n`
and increments by one per row. -/
def tableRowsAux (n : Nat) : List Row → List (List String)
  | [] => []
  | r :: rs => renderRow n r :: tableRowsAux (n + 1) rs

/-- The data rows of one group's parts table; `row_idx` starts at 1 for
every group (line 155). -/
def tableRows (g : List Row) : List (List String) := tableRowsAux 1 g

/-- One drawing primitive issued by `header_footer`. -/
inductive DrawOp where
  | topLogoImage
  | text (s : String)
  | headerTable (stationName stationNo model trolleyNo : String)
  | agiloImage
deriving DecidableEq, Repr

/-- The per-page canvas callback `header_footer` (lines 40-124): the
top-right logo is drawn only when a logo stream is held; then the document
ref label, the blue info table, the footer texts, and the fixed bottom
logo or its textual placeholder. -/
def header_footer (topLogo : Option Unit) (agiloLogoPresent : Bool)
    (stationName model stationNo trolleyNo dateStr : String) : List DrawOp :=
  (match topLogo with
   | some _ => [DrawOp.topLogoImage]
   | none => [])
  ++ [DrawOp.text "Document Ref No.:",
      DrawOp.headerTable ("STATION NAME: " ++ stationName) ("STATION NO: " ++ stationNo)
        ("MODEL: " ++ model) ("TROLLEY NO: " ++ trolleyNo),
      DrawOp.text ("Creation Date: " ++ dateStr),
      DrawOp.text "Verified By:", DrawOp.text "Name:", DrawOp.text "Signature:",
      DrawOp.text "Designed By:"]
  ++ (if agiloLogoPresent then [DrawOp.agiloImage] else [DrawOp.text "[Logo Placeholder]"])

/-! ## Definitions written from the specification's words

These follow the spec text, not the source; they exist only to be compared
with the source-derived definitions above. -/

/-- Modelled from the spec: the numeric-cleaning function of spec §4.1,
"removes a trailing `.0` suffix produced by numeric-to-string coercion".
No such function exists in `trolley.py`. -/
def specClean (s : String) : String :=
  match s.data.reverse with
  | '0' :: '.' :: rest => String.mk rest.reverse
  | _ => s

/-- Modelled from the spec: the GroupKey field order the spec claims,
"(station number, trolley id, model, station name)". -/
def specKey (r : Row) : GKey :=
  (r.getV "STATION NO", r.getV "TROLLEY_ID", r.getV "BUS MODEL", r.getV "STATION NAME")

/-- Lexicographic comparison of the spec's four-component keys. -/
def quadLE (a b : GKey) : Bool :=
  if a.1 = b.1 then
    if a.2.1 = b.2.1 then
      if a.2.2.1 = b.2.2.1 then valLE a.2.2.2 b.2.2.2
      else valLE a.2.2.1 b.2.2.1
    else valLE a.2.1 b.2.1
  else valLE a.1 b.1

/-- Modelled from the spec: sorting the table "by the full key-column list"
(station number, trolley id, model, station name), stable. -/
def specSortRows (rows : List Row) : List Row :=
  insertionSort (fun a b => quadLE (specKey a) (specKey b)) rows

/-! ## Basic lemmas about rows and column assignment -/

theorem Row.getV_set_same (r : Row) (c : String) (v : Value) :
    (r.set c v).getV c = v := by
  simp [Row.set, Row.getV, List.lookup]

theorem lookup_filter_out (r : Row) (c cx : String) (h : cx ≠ c) :
    (r.filter (fun p => decide (p.1 ≠ c))).lookup cx = r.lookup cx := by
  induction r with
  | nil => rfl
  | cons p t ih =>
    obtain ⟨a, b⟩ := p
    simp only [decide_not] at ih
    by_cases hp : a = c
    · subst hp
      have hbeq : (cx == a) = false := by simpa using h
      simp [List.filter_cons, List.lookup, hbeq, ih]
    · by_cases hcx : cx = a
      · subst hcx
        simp [List.filter_cons, hp, List.lookup]
      · have hbeq : (cx == a) = false := by simpa using hcx
        simp [List.filter_cons, hp, List.lookup, hbeq, ih]

theorem Row.getV_set_ne (r : Row) (c cx : String) (v : Value) (h : cx ≠ c) :
    (r.set c v).getV cx = r.getV cx := by
  have hbeq : (cx == c) = false := by simpa using h
  have hlf := lookup_filter_out r c cx h
  simp only [decide_not] at hlf
  simp [Row.set, Row.getV, List.lookup, hbeq, hlf]

theorem DF.mem_setCol_cols (df : DF) (c : String) (f : Row → Value) (x : String) :
    x ∈ (df.setCol c f).cols ↔ (x ∈ df.cols ∨ x = c) := by
  by_cases h : c ∈ df.cols
  · simp only [DF.setCol, if_pos h]
    constructor
    · exact Or.inl
    · rintro (hx | rfl)
      · exact hx
      · exact h
  · simp [DF.setCol, if_neg h, List.mem_append]

theorem DF.not_mem_setCol_cols (df : DF) (c : String) (f : Row → Value) (x : String)
    (hx : ¬ x ∈ df.cols) (hne : x ≠ c) : ¬ x ∈ (df.setCol c f).cols := by
  rw [DF.mem_setCol_cols]
  rintro (h | h)
  · exact hx h
  · exact hne h

theorem fallback_unknown (df : DF) (h : ¬ "Trolley No" ∈ df.cols) :
    ∀ r ∈ (fallbackTrolley df).rows, r.getV "TROLLEY_ID" = Value.strV "Unknown" := by
  intro r hr
  simp only [fallbackTrolley, if_neg h, DF.setCol, List.mem_map] at hr
  obtain ⟨r0, -, rfl⟩ := hr
  exact Row.getV_set_same r0 _ _

/-! ## Lemmas about the modelled sort -/

theorem chListLE_refl (l : List Char) : chListLE l l = true := by
  induction l with
  | nil => rfl
  | cons a as ih => simp [chListLE, ih]

theorem valLE_refl (a : Value) : valLE a a = true := by
  cases a <;> simp [valLE, strLE, chListLE_refl]

theorem pairLE_refl (a : Value × Value) : pairLE a a = true := by
  simp [pairLE, valLE_refl]

theorem insertSorted_perm (le : Row → Row → Bool) (x : Row) (l : List Row) :
    (insertSorted le x l).Perm (x :: l) := by
  induction l with
  | nil => exact List.Perm.refl _
  | cons y ys ih =>
    by_cases h : le x y
    · simp [insertSorted, h]
    · simp only [insertSorted, if_neg h]
      exact (ih.cons y).trans (List.Perm.swap x y ys)

theorem insertionSort_perm (le : Row → Row → Bool) (l : List Row) :
    (insertionSort le l).Perm l := by
  induction l with
  | nil => exact List.Perm.refl _
  | cons x xs ih => exact (insertSorted_perm le x _).trans (ih.cons x)

/-- Stability of ordered insertion on an equivalence class: when all rows
satisfying `p` compare `le`-below each other, inserting keeps the `p`-rows'
relative order. -/
theorem filter_insertSorted (le : Row → Row → Bool) (p : Row → Bool)
    (H : ∀ a b, p a = true → p b = true → le a b = true)
    (x : Row) (l : List Row) :
    (insertSorted le x l).filter p = if p x then x :: l.filter p else l.filter p := by
  induction l with
  | nil => by_cases hx : p x <;> simp [insertSorted, List.filter_cons, hx]
  | cons y ys ih =>
    by_cases hle : le x y
    · by_cases hx : p x <;> simp [insertSorted, hle, List.filter_cons, hx]
    · simp only [insertSorted, if_neg hle]
      by_cases hx : p x
      · have hy : p y = false := by
          cases hpy : p y
          · rfl
          · exact absurd (H x y hx hpy) hle
        simp [List.filter_cons, hy, ih, hx]
      · have hx' : p x = false := by
          cases hpx : p x
          · rfl
          · exact absurd hpx hx
        by_cases hy : p y <;> simp [List.filter_cons, hy, ih, hx']

theorem filter_insertionSort (le : Row → Row → Bool) (p : Row → Bool)
    (H : ∀ a b, p a = true → p b = true → le a b = true) (l : List Row) :
    (insertionSort le l).filter p = l.filter p := by
  induction l with
  | nil => rfl
  | cons x xs ih =>
    rw [insertionSort, filter_insertSorted le p H x _]
    by_cases hx : p x <;> simp [List.filter_cons, hx, ih]

theorem sortKey_eq_of_fullKey_eq {a b : Row} (h : fullKey a = fullKey b) :
    sortKey a = sortKey b := by
  simp only [fullKey, Prod.mk.injEq] at h
  simp [sortKey, h.1, h.2.1]

/-! ## The grouping is a partition -/

theorem join_groups_perm (rows : List Row) (ks : List GKey)
    (hnd : ks.Nodup) (hcov : ∀ r ∈ rows, fullKey r ∈ ks) :
    ((ks.map (fun k => rows.filter (fun r => decide (fullKey r = k)))).flatten).Perm rows := by
  induction ks generalizing rows with
  | nil =>
    cases rows with
    | nil => simp
    | cons r rs => exact absurd (hcov r (by simp)) (by simp)
  | cons k ks ih =>
    have hk : ¬ k ∈ ks := (List.nodup_cons.mp hnd).1
    have hnd2 : ks.Nodup := (List.nodup_cons.mp hnd).2
    have hcov2 : ∀ r ∈ rows.filter (fun r => !decide (fullKey r = k)), fullKey r ∈ ks := by
      intro r hr
      rw [List.mem_filter] at hr
      have h1 := hcov r hr.1
      have h2 : ¬ fullKey r = k := by simpa using hr.2
      rcases List.mem_cons.mp h1 with h | h
      · exact absurd h h2
      · exact h
    have hagree : ∀ kx ∈ ks,
        rows.filter (fun r => decide (fullKey r = kx))
          = (rows.filter (fun r => !decide (fullKey r = k))).filter
              (fun r => decide (fullKey r = kx)) := by
      intro kx hkx
      rw [List.filter_filter]
      apply List.filter_congr
      intro r _
      cases hfk : decide (fullKey r = kx)
      · simp
      · have heq : fullKey r = kx := of_decide_eq_true hfk
        have hne : ¬ fullKey r = k := by
          rw [heq]
          intro hkk
          exact hk (hkk ▸ hkx)
        simp [hne]
    have hperm1 := ih (rows.filter (fun r => !decide (fullKey r = k))) hnd2 hcov2
    simp only [List.map_cons, List.flatten_cons]
    rw [List.map_congr_left hagree]
    exact (List.Perm.append_left _ hperm1).trans (List.filter_append_perm _ rows)

/-! ## Concrete inputs used by witnesses and counterexamples -/

/-- A table with every required column present, one row. -/
def dfFull : DF :=
  { cols := ["STATION NO", "BUS MODEL", "PARTNO", "PART DESCRIPTION", "Qty / Veh", "LOCATION"],
    rows := [[("STATION NO", Value.intV 1), ("BUS MODEL", Value.strV "M1"),
              ("PARTNO", Value.strV "P1"), ("PART DESCRIPTION", Value.strV "D1"),
              ("Qty / Veh", Value.floatV 5), ("LOCATION", Value.strV "L1")]] }

/-- A table with every required column except `Qty / Veh`. -/
def dfMissingQty : DF :=
  { cols := ["STATION NO", "BUS MODEL", "PARTNO", "PART DESCRIPTION", "LOCATION"],
    rows := [] }

/-- A table carrying the three rack-fragment columns, one row whose first
fragment is an integral float (as Excel numeric cells arrive). -/
def dfRack : DF :=
  { cols := ["RACK", "RACK NO (1st digit)", "RACK NO (2nd digit)"],
    rows := [[("RACK", Value.strV "TL"), ("RACK NO (1st digit)", Value.floatV 1),
              ("RACK NO (2nd digit)", Value.intV 2)]] }

/-- A table with neither rack fragments nor a `Trolley No` column. -/
def dfNoSrc : DF :=
  { cols := ["STATION NO"], rows := [[("STATION NO", Value.intV 1)]] }

/-- A table with a RACK column but no fragment-digit columns, RACK holding
a numeric (non-string) value. -/
def dfRackOnly : DF :=
  { cols := ["RACK"], rows := [[("RACK", Value.floatV 1)]] }

/-- A row with a float-valued quantity cell. -/
def rowQty : Row := [("Qty / Veh", Value.floatV 5)]

/-- A row whose station name and model differ. -/
def rowNB : Row :=
  [("STATION NO", Value.intV 1), ("TROLLEY_ID", Value.strV "TL-12"),
   ("STATION NAME", Value.strV "UNDERBODY"), ("BUS MODEL", Value.strV "M1")]

/-- Two rows equal on the sort columns but with models out of order. -/
def rowMB : Row :=
  [("STATION NO", Value.intV 1), ("TROLLEY_ID", Value.strV "T"),
   ("BUS MODEL", Value.strV "B"), ("STATION NAME", Value.strV "S")]

def rowMA : Row :=
  [("STATION NO", Value.intV 1), ("TROLLEY_ID", Value.strV "T"),
   ("BUS MODEL", Value.strV "A"), ("STATION NAME", Value.strV "S")]

/-- The row of `dfFull` after preprocessing. -/
def rowFull : Row :=
  [("STATION NAME", Value.strV ""), ("TROLLEY_ID", Value.strV "Unknown"),
   ("STATION NO", Value.intV 1), ("BUS MODEL", Value.strV "M1"),
   ("PARTNO", Value.strV "P1"), ("PART DESCRIPTION", Value.strV "D1"),
   ("Qty / Veh", Value.floatV 5), ("LOCATION", Value.strV "L1")]

/-- The single group of `dfFull`. -/
def pairFull : GKey × List Row :=
  ((Value.intV 1, Value.strV "Unknown", Value.strV "", Value.strV "M1"), [rowFull])

/-- The row of `dfNoSrc` after the TROLLEY_ID derivation. -/
def rowNoSrc : Row :=
  [("TROLLEY_ID", Value.strV "Unknown"), ("STATION NO", Value.intV 1)]

/-! ## Claim C1: trolley-id derivation from rack fragments -/

/-- C1, counterexample: on a table with all three rack-fragment columns and
a fragment holding the float `1.0`, the code derives `"TL-1.02"` — the
plain string forms concatenated — while the claimed
`clean(rack) + "-" + clean(frag1) + clean(frag2)` is `"TL-12"`. -/
theorem trolley_c1_cex :
    (deriveTrolleyId dfRack).rows.map (fun r => r.getV "TROLLEY_ID") = [Value.strV "TL-1.02"]
    ∧ specClean (pyStr (Value.strV "TL")) ++ "-" ++ specClean (pyStr (Value.floatV 1))
        ++ specClean (pyStr (Value.intV 2)) = "TL-12"
    ∧ ("TL-1.02" : String) ≠ "TL-12" := by decide

/-- C1, amended: for every table with all three rack-fragment columns, each
row's derived trolley id is `str(rack) + "-" + str(frag1) + str(frag2)`,
the raw `str` conversions concatenated with a hyphen; no trailing-".0"
cleaning is applied. -/
theorem trolley_c1_amended (df : DF) (h1 : "RACK" ∈ df.cols)
    (h2 : "RACK NO (1st digit)" ∈ df.cols) (h3 : "RACK NO (2nd digit)" ∈ df.cols) :
    (deriveTrolleyId df).rows.map (fun r => r.getV "TROLLEY_ID")
      = df.rows.map (fun r => Value.strV (pyStr (r.getV "RACK") ++ "-"
          ++ pyStr (r.getV "RACK NO (1st digit)") ++ pyStr (r.getV "RACK NO (2nd digit)"))) := by
  have h2x : "RACK NO (1st digit)" ∈ (rackStep df).cols :=
    (DF.mem_setCol_cols _ _ _ _).2 (Or.inl h2)
  have h3x : "RACK NO (2nd digit)" ∈ (r1Step (rackStep df)).cols :=
    (DF.mem_setCol_cols _ _ _ _).2 (Or.inl ((DF.mem_setCol_cols _ _ _ _).2 (Or.inl h3)))
  rw [deriveTrolleyId, if_pos h1, if_pos h2x, if_pos h3x]
  simp only [trolleyStep, r2Step, r1Step, rackStep, DF.setCol, List.map_map]
  apply List.map_congr_left
  intro r _
  simp only [Function.comp]
  rw [Row.getV_set_same]
  rw [Row.getV_set_ne _ _ _ _ (by decide), Row.getV_set_ne _ _ _ _ (by decide),
      Row.getV_set_same]
  rw [Row.getV_set_ne _ _ _ _ (by decide), Row.getV_set_same,
      Row.getV_set_ne _ _ _ _ (by decide)]
  rw [Row.getV_set_same, Row.getV_set_ne _ _ _ _ (by decide),
      Row.getV_set_ne _ _ _ _ (by decide)]
  simp [pyStr]

/-- C1, witness: the amended statement applied to the concrete `dfRack`. -/
theorem trolley_c1_amended_witness :
    ("RACK" ∈ dfRack.cols ∧ "RACK NO (1st digit)" ∈ dfRack.cols
      ∧ "RACK NO (2nd digit)" ∈ dfRack.cols)
    ∧ (deriveTrolleyId dfRack).rows.map (fun r => r.getV "TROLLEY_ID")
        = dfRack.rows.map (fun r => Value.strV (pyStr (r.getV "RACK") ++ "-"
            ++ pyStr (r.getV "RACK NO (1st digit)") ++ pyStr (r.getV "RACK NO (2nd digit)"))) :=
  ⟨by decide, trolley_c1_amended dfRack (by decide) (by decide) (by decide)⟩

/-! ## Claim C2: required-column validation -/

/-- C2, counterexample: a table holding all five columns the claim lists as
required is still rejected, because the code also requires `Qty / Veh`. -/
theorem trolley_c2_cex :
    (∀ c ∈ ["STATION NO", "BUS MODEL", "PARTNO", "PART DESCRIPTION", "LOCATION"],
        c ∈ dfMissingQty.cols)
    ∧ generate dfMissingQty = GenResult.schemaError ["Qty / Veh"] := by decide

/-- C2, amended: generation is rejected, with the exact list of missing
column names, precisely when one of the six required columns
{STATION NO, BUS MODEL, PARTNO, PART DESCRIPTION, Qty / Veh, LOCATION}
is absent: a rejection lists exactly the missing required names (nonempty),
a table with all six present proceeds to grouping, and a table missing any
required column is rejected with that list. -/
theorem trolley_c2_amended (df : DF) :
    (∀ m, generate df = GenResult.schemaError m → m = missingOf df ∧ m ≠ [])
    ∧ ((∀ c ∈ required_cols, c ∈ df.cols) → generate df = GenResult.ok (groupedPairs df))
    ∧ ((∃ c ∈ required_cols, ¬ c ∈ df.cols) →
        generate df = GenResult.schemaError (missingOf df)) := by
  refine ⟨?_, ?_, ?_⟩
  · intro m hm
    by_cases h : missingOf df = []
    · rw [generate, if_pos h] at hm
      exact absurd hm (by simp)
    · rw [generate, if_neg h] at hm
      have : missingOf df = m := by injection hm
      exact ⟨this.symm, this ▸ h⟩
  · intro hc
    have h : missingOf df = [] := by
      rw [missingOf, List.filter_eq_nil_iff]
      intro c hcr
      simpa using hc c hcr
    rw [generate, if_pos h]
  · rintro ⟨c, hc, hcm⟩
    have hmem : c ∈ missingOf df := by
      rw [missingOf, List.mem_filter]
      exact ⟨hc, by simpa using hcm⟩
    have h : missingOf df ≠ [] := List.ne_nil_of_mem hmem
    rw [generate, if_neg h]

/-- C2, witness: the amended statement at the concrete tables
`dfMissingQty` (rejected, listing exactly `Qty / Veh`) and `dfFull`
(accepted). -/
theorem trolley_c2_amended_witness :
    ((["Qty / Veh"] : List String) = missingOf dfMissingQty ∧ (["Qty / Veh"] : List String) ≠ [])
    ∧ generate dfFull = GenResult.ok (groupedPairs dfFull)
    ∧ generate dfMissingQty = GenResult.schemaError (missingOf dfMissingQty) :=
  ⟨(trolley_c2_amended dfMissingQty).1 ["Qty / Veh"] (by decide),
   (trolley_c2_amended dfFull).2.1 (by decide),
   (trolley_c2_amended dfMissingQty).2.2 ⟨"Qty / Veh", by decide, by decide⟩⟩

/-! ## Claim C3: sentinel when both trolley-id sources are missing -/

/-- C3, counterexample: with neither rack fragments nor a `Trolley No`
column, the sentinel the code assigns is `"Unknown"`, not the claimed
`"UNKNOWN"`. -/
theorem trolley_c3_cex :
    (deriveTrolleyId dfNoSrc).rows.map (fun r => r.getV "TROLLEY_ID") = [Value.strV "Unknown"]
    ∧ Value.strV "Unknown" ≠ Value.strV "UNKNOWN" := by decide

/-- C3, amended: for every table in which not all three rack-fragment
columns are present and no `Trolley No` column exists, every row's derived
trolley id is the sentinel literal `"Unknown"` (mixed case). -/
theorem trolley_c3_amended (df : DF)
    (h1 : ¬ ("RACK" ∈ df.cols ∧ "RACK NO (1st digit)" ∈ df.cols
              ∧ "RACK NO (2nd digit)" ∈ df.cols))
    (h2 : ¬ "Trolley No" ∈ df.cols) :
    ∀ r ∈ (deriveTrolleyId df).rows, r.getV "TROLLEY_ID" = Value.strV "Unknown" := by
  rw [deriveTrolleyId]
  by_cases hA : "RACK" ∈ df.cols
  · rw [if_pos hA]
    by_cases hB : "RACK NO (1st digit)" ∈ (rackStep df).cols
    · rw [if_pos hB]
      by_cases hC : "RACK NO (2nd digit)" ∈ (r1Step (rackStep df)).cols
      · exfalso
        apply h1
        refine ⟨hA, ?_, ?_⟩
        · rcases (DF.mem_setCol_cols _ _ _ _).1 hB with h | h
          · exact h
          · exact absurd h (by decide)
        · rcases (DF.mem_setCol_cols _ _ _ _).1 hC with h | h
          · rcases (DF.mem_setCol_cols _ _ _ _).1 h with hx | hx
            · exact hx
            · exact absurd hx (by decide)
          · exact absurd h (by decide)
      · rw [if_neg hC]
        apply fallback_unknown
        apply DF.not_mem_setCol_cols
        · exact DF.not_mem_setCol_cols _ _ _ _ h2 (by decide)
        · decide
    · rw [if_neg hB]
      apply fallback_unknown
      exact DF.not_mem_setCol_cols _ _ _ _ h2 (by decide)
  · rw [if_neg hA]
    exact fallback_unknown df h2

/-- C3, witness: the amended statement at the concrete `dfNoSrc`. -/
theorem trolley_c3_amended_witness :
    rowNoSrc ∈ (deriveTrolleyId dfNoSrc).rows
    ∧ rowNoSrc.getV "TROLLEY_ID" = Value.strV "Unknown" :=
  ⟨by decide, trolley_c3_amended dfNoSrc (by decide) (by decide) rowNoSrc (by decide)⟩

/-! ## Claim C4: group-key field order and page decomposition -/

/-- C4, counterexample: the grouping key the code builds is ordered
(station number, trolley id, station name, model), not the claimed
(station number, trolley id, model, station name): on a row whose station
name and model differ, the two tuples differ. -/
theorem trolley_c4_cex : fullKey rowNB ≠ specKey rowNB := by decide

/-- C4, amended: the GroupKey is the ordered tuple (station number, trolley
id, station name, model), and the page composer decomposes it positionally
in that same order, so for every group produced by the pipeline each page
field shows the matching attribute of the group's rows. -/
theorem trolley_c4_amended :
    (∀ r : Row, pageCtxOfKey (fullKey r)
      = { station_no := r.getV "STATION NO", trolley_no := r.getV "TROLLEY_ID",
          station_name := r.getV "STATION NAME", model := r.getV "BUS MODEL" })
    ∧ ∀ (df : DF) (p : GKey × List Row), p ∈ groupedPairs df → ∀ r ∈ p.2,
        pageCtxOfKey p.1
          = { station_no := r.getV "STATION NO", trolley_no := r.getV "TROLLEY_ID",
              station_name := r.getV "STATION NAME", model := r.getV "BUS MODEL" } := by
  constructor
  · intro r
    rfl
  · intro df p hp r hr
    simp only [groupedPairs, List.mem_map] at hp
    obtain ⟨k, -, rfl⟩ := hp
    simp only [groupOf, List.mem_filter] at hr
    have hk : fullKey r = k := of_decide_eq_true hr.2
    rw [← hk]
    rfl

/-- C4, witness: the amended statement at the concrete single group of
`dfFull`. -/
theorem trolley_c4_amended_witness :
    (pairFull ∈ groupedPairs dfFull ∧ rowFull ∈ pairFull.2)
    ∧ pageCtxOfKey pairFull.1
        = { station_no := rowFull.getV "STATION NO", trolley_no := rowFull.getV "TROLLEY_ID",
            station_name := rowFull.getV "STATION NAME", model := rowFull.getV "BUS MODEL" } :=
  ⟨⟨by decide, by decide⟩,
   trolley_c4_amended.2 dfFull pairFull (by decide) rowFull (by decide)⟩

/-! ## Claim C5: grouping is a partition -/

/-- C5: for every input table, grouping partitions the preprocessed rows:
the concatenation of all groups' rows is a permutation of the table's rows
(no duplication, no loss), and every row lies in exactly one group. -/
theorem trolley_c5 (df : DF) :
    (((groupedPairs df).map Prod.snd).flatten).Perm (processTable df).rows
    ∧ ∀ r ∈ (processTable df).rows, ∃! k, k ∈ groupKeys df ∧ r ∈ groupOf df k := by
  constructor
  · have h1 : (groupedPairs df).map Prod.snd = (groupKeys df).map (fun k => groupOf df k) := by
      simp [groupedPairs, List.map_map]
    rw [h1]
    have h2 := join_groups_perm (sortedRows df) (groupKeys df) (List.nodup_dedup _)
      (fun r hr => List.mem_dedup.2 (List.mem_map.2 ⟨r, hr, rfl⟩))
    have h3 : (sortedRows df).Perm (processTable df).rows := insertionSort_perm _ _
    exact h2.trans h3
  · intro r hr
    have hr2 : r ∈ sortedRows df :=
      (insertionSort_perm (fun a b => pairLE (sortKey a) (sortKey b))
        (processTable df).rows).mem_iff.2 hr
    refine ⟨fullKey r, ⟨?_, ?_⟩, ?_⟩
    · exact List.mem_dedup.2 (List.mem_map.2 ⟨r, hr2, rfl⟩)
    · exact List.mem_filter.2 ⟨hr2, by simp⟩
    · rintro k ⟨-, hk2⟩
      rw [groupOf, List.mem_filter] at hk2
      exact (of_decide_eq_true hk2.2).symm

/-- C5, witness: the partition statement at the concrete `dfFull` and its
processed row. -/
theorem trolley_c5_witness :
    rowFull ∈ (processTable dfFull).rows
    ∧ ∃! k, k ∈ groupKeys dfFull ∧ rowFull ∈ groupOf dfFull k :=
  ⟨by decide, (trolley_c5 dfFull).2 rowFull (by decide)⟩

/-! ## Claim C6: per-group serial numbering -/

theorem tableRowsAux_serials (n : Nat) (g : List Row) :
    (tableRowsAux n g).map (fun row => row.head?)
      = (List.range g.length).map (fun i => some (toString (n + i))) := by
  induction g generalizing n with
  | nil => rfl
  | cons r rs ih =>
    have h1 : (tableRowsAux n (r :: rs)).map (fun row => row.head?)
        = some (toString n) :: (tableRowsAux (n + 1) rs).map (fun row => row.head?) := rfl
    rw [h1, ih (n + 1), List.length_cons, List.range_succ_eq_map, List.map_cons, List.map_map]
    congr 1
    apply List.map_congr_left
    intro i _
    simp only [Function.comp]
    congr 2
    omega

/-- C6: in every group's rendered parts table the serial-number column is
`1, 2, 3, ...` down the rows: it starts at 1 on the group's first data row
and increases by exactly 1 per row.  `tableRows` depends on the group
alone, so no counter state carries over between groups. -/
theorem trolley_c6 (g : List Row) :
    (tableRows g).map (fun row => row.head?)
      = (List.range g.length).map (fun i => some (toString (i + 1))) := by
  rw [tableRows, tableRowsAux_serials 1 g]
  apply List.map_congr_left
  intro i _
  congr 2
  omega

/-! ## Claim C7: omitting the top-right logo -/

/-- C7, counterexample: with a valid table uploaded but the top-right logo
omitted, the app's gate produces nothing at all — no document is
generated. -/
theorem trolley_c7_cex :
    runApp (some dfFull) none = none ∧ missingOf dfFull = [] := by decide

/-- C7, amended: the invocation gate runs generation only when both the
Excel file and the top-right logo are supplied, so omitting the logo means
no document (and no error); the page-render callback itself tolerates a
missing logo stream, emitting no logo-image drawing operation. -/
theorem trolley_c7_amended :
    (∀ df : DF, runApp (some df) none = none)
    ∧ ∀ (ag : Bool) (sn m sno tn d : String),
        (header_footer none ag sn m sno tn d).count DrawOp.topLogoImage = 0 := by
  constructor
  · intro df
    rfl
  · intro ag sn m sno tn d
    cases ag <;> simp [header_footer, List.count_append, List.count_cons]

/-! ## Claim C8: quantity cells and cleaning idempotence -/

/-- C8, counterexample: a `Qty / Veh` cell holding the float `5.0` renders
as `"5.0"`; the claimed numeric-cleaning function would render `"5"`. -/
theorem trolley_c8_cex :
    (renderRow 1 rowQty)[3]? = some "5.0" ∧ specClean "5.0" = "5"
    ∧ ("5.0" : String) ≠ "5" := by decide

/-- C8, amended: every Qty/Vehicle, Max Size, and Qty/Trolley cell is the
source attribute through plain `str` (missing attribute defaults to the
empty string, no trailing-".0" stripping), and that conversion is
idempotent: `str` of an already converted value is unchanged. -/
theorem trolley_c8_amended :
    (∀ (i : Nat) (r : Row),
        (renderRow i r)[3]? = some (cellStr r "Qty / Veh")
        ∧ (renderRow i r)[4]? = some (cellStr r "Max Size")
        ∧ (renderRow i r)[5]? = some (cellStr r "Qty /Trolley"))
    ∧ ∀ v : Value, pyStr (Value.strV (pyStr v)) = pyStr v :=
  ⟨fun _ _ => ⟨rfl, rfl, rfl⟩, fun _ => rfl⟩

/-! ## Claim C9: sort keys and stability -/

/-- C9, counterexample: the code sorts by (STATION NO, TROLLEY_ID) only; on
two rows equal there but with BUS MODEL values out of order, its result
differs from sorting by the claimed full key-column list. -/
theorem trolley_c9_cex : sortRows [rowMB, rowMA] ≠ specSortRows [rowMB, rowMA] := by decide

/-- C9, amended: before grouping the table is sorted by the two columns
(STATION NO, TROLLEY_ID) only; with the sort modelled as stable, the rows
of every group (rows agreeing on the full group key) keep their original
relative input order. -/
theorem trolley_c9_amended (rows : List Row) (k : GKey) :
    (sortRows rows).filter (fun r => decide (fullKey r = k))
      = rows.filter (fun r => decide (fullKey r = k)) := by
  rw [sortRows]
  apply filter_insertionSort
  intro a b ha hb
  have ha2 : fullKey a = k := of_decide_eq_true ha
  have hb2 : fullKey b = k := of_decide_eq_true hb
  have hs : sortKey a = sortKey b := sortKey_eq_of_fullKey_eq (ha2.trans hb2.symm)
  show pairLE (sortKey a) (sortKey b) = true
  rw [hs]
  exact pairLE_refl _

/-! ## Claim C10: the failed rack branch leaves its partial effect -/

/-- C10: when the RACK column is present but a fragment-digit column is
missing (and there is no `Trolley No` column), the derivation takes the
fallback, yet every row's RACK cell has already been replaced by its
string form: the failed branch's first assignment persists. -/
theorem trolley_c10 (df : DF) (h1 : "RACK" ∈ df.cols)
    (h2 : ¬ "RACK NO (1st digit)" ∈ df.cols) (h3 : ¬ "Trolley No" ∈ df.cols) :
    (deriveTrolleyId df).rows
      = df.rows.map (fun r =>
          (r.set "RACK" (Value.strV (pyStr (r.getV "RACK")))).set "TROLLEY_ID"
            (Value.strV "Unknown")) := by
  have h2x : ¬ "RACK NO (1st digit)" ∈ (rackStep df).cols :=
    DF.not_mem_setCol_cols _ _ _ _ h2 (by decide)
  have h3x : ¬ "Trolley No" ∈ (rackStep df).cols :=
    DF.not_mem_setCol_cols _ _ _ _ h3 (by decide)
  rw [deriveTrolleyId, if_pos h1, if_neg h2x, fallbackTrolley, if_neg h3x]
  simp only [rackStep, DF.setCol, List.map_map]
  rfl

/-- C10, witness: on `dfRackOnly` the fallback assigns `"Unknown"` while
the RACK cell, originally the float `1.0`, is now the string `"1.0"` — the
state was changed by the failed branch. -/
theorem trolley_c10_witness :
    ("RACK" ∈ dfRackOnly.cols ∧ ¬ "RACK NO (1st digit)" ∈ dfRackOnly.cols
      ∧ ¬ "Trolley No" ∈ dfRackOnly.cols)
    ∧ (deriveTrolleyId dfRackOnly).rows
        = dfRackOnly.rows.map (fun r =>
            (r.set "RACK" (Value.strV (pyStr (r.getV "RACK")))).set "TROLLEY_ID"
              (Value.strV "Unknown"))
    ∧ (deriveTrolleyId dfRackOnly).rows.map (fun r => r.getV "RACK") = [Value.strV "1.0"]
    ∧ dfRackOnly.rows.map (fun r => r.getV "RACK") = [Value.floatV 1]
    ∧ Value.strV "1.0" ≠ Value.floatV 1 :=
  ⟨by decide, trolley_c10 dfRackOnly (by decide) (by decide) (by decide),
   by decide, by decide, by decide⟩

end Trolley
